import Mathlib

/-!
Verification of the webimizer HTTP convenience layer (`webimizer.go`).

The development shallowly embeds the Go source: the HTTP request and the
response writer become explicit records, per-request mutation of the
response becomes explicit state passing, and the handlers wrapped by the
envelope are represented by their interaction traces with the writer they
receive.  External Go standard-library collaborators (content sniffing,
substring search, path joining, the status-code setter of the response
sink) are not repository code; they are modelled from the spec's
description of them, each marked with a doc comment.
-/

namespace Webimizer

/-- Request-side view of an HTTP header map: `Get` returns the empty string
when the key is absent, mirroring Go's `http.Header.Get`. -/
def headerGet : List (String × String) → String → String
  | [], _ => ""
  | (k, v) :: rest, key => if k = key then v else headerGet rest key

/-- Header `Set`: replaces any existing value for the key, as Go's
`http.Header.Set` does. -/
def headerSet (h : List (String × String)) (key val : String) : List (String × String) :=
  (key, val) :: h.filter (fun p => p.fst != key)

/-- An incoming HTTP request: its method token and its header map
(`*http.Request` restricted to the fields the source reads). -/
structure Request where
  method : String
  headers : List (String × String)
deriving DecidableEq

/-- State of the gzip stream created by `gzip.NewWriter(w)` in `ServeHTTP`:
the uncompressed bytes it has accepted so far and whether it was closed.
The compressed output bytes themselves are abstracted away; no verified
property depends on them. -/
structure GzipState where
  written : List Char
  closed : Bool
deriving DecidableEq

/-- The observable per-request state of the response writer `w`: its header
map, its status code (none until `WriteHeader` is called), the bytes written
directly to it, and the gzip stream wrapping it once one has been created. -/
structure HttpState where
  headers : List (String × String)
  status : Option Nat
  out : List Char
  gz : Option GzipState
deriving DecidableEq

/-- Effect of `w.Header().Set(k, v)` on the response state. -/
def setRespHeader (s : HttpState) (key val : String) : HttpState :=
  { s with headers := headerSet s.headers key val }

/-- Modelled from the spec: `fmt.Fprint(rw, str)` (Go standard library, not
repository code) writes the string's bytes to the response sink. -/
def fprint (s : HttpState) (str : String) : HttpState :=
  { s with out := s.out ++ str.data }

/-- Semantics of a Go `HttpHandler` value as used by the gate: a function
from the response-writer state and the request to the updated state. -/
abbrev GoHandler := HttpState → Request → HttpState

/-- The `HttpHandlerStruct` of the source: the allowed handler, the optional
not-allowed handler (`nil` becomes `none`), and the two allow-lists. -/
structure HttpHandlerStruct where
  NotAllowHandler : Option GoHandler
  Handler : GoHandler
  AllowedMethods : List String
  AllowedOrigins : List String

/-- The loop body of `HttpHandlerStruct.checkOrigins`: scan the allowed
origins, returning `true` on the first entry equal to the request's
`Origin` header. -/
def checkOriginsLoop (originHeader : String) : List String → Bool
  | [] => false
  | origin :: rest =>
    if origin == originHeader then true else checkOriginsLoop originHeader rest

/-- `HttpHandlerStruct.checkOrigins` from the source: does some entry of
`AllowedOrigins` equal `r.Header.Get("Origin")`. -/
def HttpHandlerStruct.checkOrigins (fn : HttpHandlerStruct) (r : Request) : Bool :=
  checkOriginsLoop (headerGet r.headers "Origin") fn.AllowedOrigins

/-- The loop of `HttpHandlerStruct.notAllowed`: scan `AllowedMethods`; on an
entry equal to `r.Method` whose origin condition also holds, return the
allowed handler; otherwise fall through to the not-allowed handler. -/
def notAllowedLoop (fn : HttpHandlerStruct) (r : Request) (hasOrigins : Bool)
    (na : GoHandler) : List String → GoHandler
  | [] => na
  | m :: rest =>
    if m == r.method && (!hasOrigins || fn.checkOrigins r) then fn.Handler
    else notAllowedLoop fn r hasOrigins na rest

/-- `HttpHandlerStruct.notAllowed` from the source: `hasOrigins` is
`len(fn.AllowedOrigins) > 0`, then the method loop above. -/
def HttpHandlerStruct.notAllowed (fn : HttpHandlerStruct) (r : Request)
    (na : GoHandler) : GoHandler :=
  notAllowedLoop fn r (decide (fn.AllowedOrigins.length > 0)) na fn.AllowedMethods

/-- The fallback closure constructed inside `HttpHandlerStruct.Build`: call
`NotAllowHandler` when one was supplied, otherwise `fmt.Fprint(rw, "Bad
Request")`. -/
def gateFallback (builder : HttpHandlerStruct) : GoHandler :=
  fun rw r =>
    match builder.NotAllowHandler with
    | some h => h rw r
    | none => fprint rw "Bad Request"

/-- `HttpHandlerStruct.Build` from the source: the built handler asks
`notAllowed` to select between `Handler` and the fallback closure, then
invokes the selected handler on `(w, r)`. -/
def HttpHandlerStruct.Build (builder : HttpHandlerStruct) : GoHandler :=
  fun w r => (builder.notAllowed r (gateFallback builder)) w r

/-- Modelled from the spec: helper for Go's `strings.Contains` (standard
library, not repository code) — does the second list occur as a leading
segment of the first. -/
def startsWithL : List Char → List Char → Bool
  | _, [] => true
  | [], _ :: _ => false
  | c :: l, d :: m => c == d && startsWithL l m

/-- Modelled from the spec: Go's `strings.Contains` on rune lists (standard
library, not repository code) — exact, case-sensitive substring
containment of `sub` in the scanned list. -/
def containsSub (sub : List Char) : List Char → Bool
  | [] => startsWithL [] sub
  | c :: t => startsWithL (c :: t) sub || containsSub sub t

/-- Modelled from the spec: Go's `strings.Contains s sub` (standard library,
not repository code). -/
def strContains (s sub : String) : Bool := containsSub sub.data s.data

/-- Modelled from the spec: Go's `http.DetectContentType` (standard library,
not repository code).  The spec states it examines at most the first 512
bytes of the buffer and applies a fixed documented heuristic table; the
heuristic table itself is abstracted as the function `sniff`. -/
def DetectContentType (sniff : List Char → String) (b : List Char) : String :=
  sniff (b.take 512)

/-- Effect of `gz.Write(b)` on the gzip stream created in `ServeHTTP`: the
uncompressed bytes are appended to the stream's buffer.  With no stream
present the state is unchanged (unreachable in the modelled flow). -/
def gzStreamWrite (s : HttpState) (b : List Char) : HttpState :=
  match s.gz with
  | some g => { s with gz := some { g with written := g.written ++ b } }
  | none => s

/-- `gzipResponseWriter.Write` from the source: if the response's
`Content-Type` header is empty, set it from the sniffing algorithm applied
to the bytes of this call, then forward the bytes to the gzip stream. -/
def gzipResponseWriterWrite (sniff : List Char → String) (s : HttpState)
    (b : List Char) : HttpState :=
  gzStreamWrite
    (if headerGet s.headers "Content-Type" = "" then
      setRespHeader s "Content-Type" (DetectContentType sniff b)
    else s) b

/-- Which response sink a wrapped handler was invoked with: the original
writer `w`, or the `gzipResponseWriter` wrapping the gzip stream. -/
inductive Sink where
  | plain : Sink
  | gzipWrapped : Sink
deriving DecidableEq

/-- One interaction of a wrapped handler with the writer it was handed:
write bytes, call `WriteHeader`, or set a response header.  (The header and
status operations of `gzipResponseWriter` delegate to the embedded
`http.ResponseWriter`, so they act on the shared response state for either
sink.) -/
inductive SinkOp where
  | write : List Char → SinkOp
  | writeHeader : Nat → SinkOp
  | setHeader : String → String → SinkOp
deriving DecidableEq

/-- Interpretation of one handler interaction against the given sink.  A
byte write on the plain sink goes directly to the underlying writer; on the
gzip-wrapped sink it goes through `gzipResponseWriter.Write`.  `WriteHeader`
is modelled from the spec as the outbound status-code setter. -/
def runOp (sniff : List Char → String) (sink : Sink) (s : HttpState) :
    SinkOp → HttpState
  | SinkOp.write b =>
    match sink with
    | Sink.plain => { s with out := s.out ++ b }
    | Sink.gzipWrapped => gzipResponseWriterWrite sniff s b
  | SinkOp.writeHeader code => { s with status := some code }
  | SinkOp.setHeader k v => setRespHeader s k v

/-- A wrapped handler, represented by its interaction trace with the writer
it receives, run to completion. -/
def runHandler (sniff : List Char → String) (sink : Sink) (s : HttpState) :
    List SinkOp → HttpState
  | [] => s
  | op :: rest => runHandler sniff sink (runOp sniff sink s op) rest

/-- The `DefaultHTTPHeaders` loop of `ServeHTTP`: for each entry `v` in
order, if `len(v) == 2` then `w.Header().Set(v[0], v[1])`, otherwise the
entry is skipped. -/
def applyDefaultHeaders (s : HttpState) : List (List String) → HttpState
  | [] => s
  | v :: rest =>
    applyDefaultHeaders
      (if v.length = 2 then setRespHeader s (v.getD 0 "") (v.getD 1 "") else s) rest

/-- The deferred `gz.Close()` of `ServeHTTP`: mark the gzip stream closed
(flushing of its compressed trailer to the sink is abstracted away). -/
def closeGz (s : HttpState) : HttpState :=
  match s.gz with
  | some g => { s with gz := some { g with closed := true } }
  | none => s

/-- `HttpHandler.ServeHTTP` from the source: apply the default headers; if
the request's `Accept-Encoding` header does not contain `"gzip"`, run the
wrapped handler on the plain sink and return; otherwise set
`Content-Encoding: gzip`, create the gzip stream, run the wrapped handler
on the gzip-wrapped sink, and (deferred) close the stream. -/
def ServeHTTP (sniff : List Char → String) (defaults : List (List String))
    (fn : List SinkOp) (w : HttpState) (r : Request) : HttpState :=
  let w1 := applyDefaultHeaders w defaults
  if !(strContains (headerGet r.headers "Accept-Encoding") "gzip") then
    runHandler sniff Sink.plain w1 fn
  else
    let w2 := setRespHeader w1 "Content-Encoding" "gzip"
    let w3 := { w2 with gz := some { written := [], closed := false } }
    closeGz (runHandler sniff Sink.gzipWrapped w3 fn)

/-- A file handle returned by the wrapped `http.FileSystem`: an identity for
the handle, whether `Stat` reports a directory, and whether `Close`
succeeds. -/
structure GoFile where
  id : Nat
  isDir : Bool
  closeOk : Bool
deriving DecidableEq

/-- The `neuteredFileSystem` of the source: the wrapped filesystem's `Open`
(a function from a path to a handle or an error of type `ε`, matching Go's
`error` interface abstractly) and the response writer `w` the resolver
writes the 404 status to.  The request field is not read by `Open` and is
omitted. -/
structure neuteredFileSystem (ε : Type) where
  fs : String → Except ε GoFile
  w : HttpState

/-- Modelled from the spec: `filepath.Join(path, "index.html")` (Go standard
library, not repository code) — the `index.html` entry under the given
directory path; path cleaning is not modelled. -/
def joinIndex (path : String) : String := path ++ "/index.html"

/-- The `errorHandler` closure inside `neuteredFileSystem.Open`: open the
designated `/error404.html` under the same root; on failure return that
error with the response untouched; on success set `Content-Type` to
`"text/html; charset=utf-8"`, write the 404 status, and return the
substitute document's handle. -/
def errorHandler404 {ε : Type} (nfs : neuteredFileSystem ε) :
    Except ε GoFile × HttpState :=
  match nfs.fs "/error404.html" with
  | Except.error e => (Except.error e, nfs.w)
  | Except.ok f =>
    (Except.ok f,
      { setRespHeader nfs.w "Content-Type" "text/html; charset=utf-8" with
          status := some 404 })

/-- `neuteredFileSystem.Open` from the source: open the requested path; on
failure run the 404 handler.  On success, if the handle is a directory,
also require `index.html` under it; if that open fails, close the handle
(the source runs the 404 handler whether or not the close itself fails) and
run the 404 handler.  Otherwise return the handle with the response
untouched. -/
def neuteredFileSystem.Open {ε : Type} (nfs : neuteredFileSystem ε)
    (path : String) : Except ε GoFile × HttpState :=
  match nfs.fs path with
  | Except.error _ => errorHandler404 nfs
  | Except.ok f =>
    if f.isDir then
      match nfs.fs (joinIndex path) with
      | Except.error _ =>
        if f.closeOk then errorHandler404 nfs else errorHandler404 nfs
      | Except.ok _ => (Except.ok f, nfs.w)
    else (Except.ok f, nfs.w)

/-- The failure condition of the primary lookup in `neuteredFileSystem.Open`:
either the requested path does not open, or it opens as a directory whose
`index.html` entry does not open. -/
def primaryFails {ε : Type} (fs : String → Except ε GoFile) (path : String) : Prop :=
  (∃ e, fs path = Except.error e) ∨
    (∃ f e, fs path = Except.ok f ∧ f.isDir = true ∧
      fs (joinIndex path) = Except.error e)

/-! Concrete sample data used by the witness theorems. -/

/-- A fresh response-writer state: no headers, no status, nothing written. -/
def w0 : HttpState := { headers := [], status := none, out := [], gz := none }

/-- A sample allowed handler that writes a fixed body. -/
def okHandler : GoHandler := fun w _ => fprint w "ok"

/-- A sample GET request carrying an `Origin` header. -/
def reqGet : Request :=
  { method := "GET", headers := [("Origin", "https://example.com")] }

/-- A gate with an empty allowed-methods list (the always-reject
configuration) and a configured origin list. -/
def rejectAllGate : HttpHandlerStruct :=
  { NotAllowHandler := none, Handler := okHandler,
    AllowedMethods := [], AllowedOrigins := ["https://example.com"] }

/-- A gate with a nil not-allowed handler and a single allowed method. -/
def getOnlyGate : HttpHandlerStruct :=
  { NotAllowHandler := none, Handler := okHandler,
    AllowedMethods := ["GET"], AllowedOrigins := [] }

/-- A sample DELETE request (not in `getOnlyGate`'s allow-list). -/
def reqDelete : Request := { method := "DELETE", headers := [] }

/-- A request that does not advertise gzip support. -/
def reqPlainAE : Request :=
  { method := "GET", headers := [("Accept-Encoding", "identity")] }

/-- A request that advertises gzip support among other encodings. -/
def reqGzipAE : Request :=
  { method := "GET", headers := [("Accept-Encoding", "gzip, deflate")] }

/-- A sample sniffing heuristic (the concrete table is irrelevant to every
verified property). -/
def sniff0 : List Char → String := fun _ => "application/octet-stream"

/-- A sample wrapped-handler trace: one body write. -/
def fn0 : List SinkOp := [SinkOp.write ("hello").data]

/-- A response state whose gzip stream exists and whose `Content-Type` is
already set. -/
def sPreset : HttpState :=
  { headers := [("Content-Type", "text/css")], status := none, out := [],
    gz := some { written := [], closed := false } }

/-- A response state whose gzip stream exists and whose `Content-Type` is
unset. -/
def sUnset : HttpState :=
  { headers := [], status := none, out := [],
    gz := some { written := [], closed := false } }

/-- The substitute not-found document's handle. -/
def subFile : GoFile := { id := 1, isDir := false, closeOk := true }

/-- A directory handle with no `index.html` under it. -/
def docsDir : GoFile := { id := 2, isDir := true, closeOk := true }

/-- A filesystem holding `/error404.html` and an index-less directory
`docs`; every other path fails to open. -/
def fs404 : String → Except String GoFile := fun p =>
  if p = "/error404.html" then Except.ok subFile
  else if p = "docs" then Except.ok docsDir
  else Except.error "open failure"

/-- A filesystem on which every open fails, the substitute document's open
failing with a different error than every other path. -/
def fsBothFail : String → Except String GoFile := fun p =>
  if p = "/error404.html" then Except.error "substitute gone"
  else Except.error "primary gone"

/-! Helper lemmas shared by the claim theorems. -/

theorem checkOriginsLoop_eq_true (o : String) (l : List String) :
    checkOriginsLoop o l = true ↔ o ∈ l := by
  induction l with
  | nil => simp [checkOriginsLoop]
  | cons a t ih =>
    simp only [checkOriginsLoop]
    by_cases h : a = o
    · simp [h]
    · rw [if_neg (by simp [h]), ih, List.mem_cons]
      constructor
      · exact Or.inr
      · rintro (rfl | ht)
        · exact absurd rfl h
        · exact ht

theorem notAllowedLoop_spec (fn : HttpHandlerStruct) (r : Request)
    (hasOrigins : Bool) (na : GoHandler) (ms : List String) :
    notAllowedLoop fn r hasOrigins na ms =
      if r.method ∈ ms ∧ (hasOrigins = false ∨ fn.checkOrigins r = true)
      then fn.Handler else na := by
  induction ms with
  | nil => simp [notAllowedLoop]
  | cons m rest ih =>
    simp only [notAllowedLoop]
    by_cases hcond : (m == r.method && (!hasOrigins || fn.checkOrigins r)) = true
    · rw [if_pos hcond, if_pos]
      simp only [Bool.and_eq_true, beq_iff_eq, Bool.or_eq_true,
        Bool.not_eq_true'] at hcond
      exact ⟨hcond.1 ▸ List.mem_cons_self m rest, hcond.2⟩
    · rw [if_neg hcond, ih]
      apply if_congr _ rfl rfl
      simp only [Bool.and_eq_true, beq_iff_eq, Bool.or_eq_true,
        Bool.not_eq_true', not_and, not_or] at hcond
      constructor
      · rintro ⟨hm, hC⟩
        exact ⟨List.mem_cons_of_mem m hm, hC⟩
      · rintro ⟨hm, hC⟩
        rcases List.mem_cons.mp hm with he | ht
        · obtain ⟨ht1, ht2⟩ := hcond he.symm
          rcases hC with h1 | h2
          · rw [h1] at ht1; exact absurd ht1 (by decide)
          · rw [h2] at ht2; exact absurd ht2 (by decide)
        · exact ⟨ht, hC⟩

theorem notAllowed_spec (fn : HttpHandlerStruct) (r : Request) (na : GoHandler) :
    fn.notAllowed r na =
      if r.method ∈ fn.AllowedMethods ∧
          (fn.AllowedOrigins = [] ∨ headerGet r.headers "Origin" ∈ fn.AllowedOrigins)
      then fn.Handler else na := by
  unfold HttpHandlerStruct.notAllowed
  rw [notAllowedLoop_spec]
  apply if_congr _ rfl rfl
  apply and_congr Iff.rfl
  apply or_congr
  · simp [List.length_eq_zero]
  · exact checkOriginsLoop_eq_true _ _

theorem gzStreamWrite_gz_isSome (s : HttpState) (b : List Char) :
    ((gzStreamWrite s b).gz).isSome = s.gz.isSome := by
  cases hgz : s.gz <;> simp [gzStreamWrite, hgz]

theorem gzStreamWrite_headers (s : HttpState) (b : List Char) :
    (gzStreamWrite s b).headers = s.headers := by
  cases hgz : s.gz <;> simp [gzStreamWrite, hgz]

theorem gzipWrite_gz_isSome (sniff : List Char → String) (s : HttpState)
    (b : List Char) :
    ((gzipResponseWriterWrite sniff s b).gz).isSome = s.gz.isSome := by
  unfold gzipResponseWriterWrite
  rw [gzStreamWrite_gz_isSome]
  split <;> rfl

theorem runOp_gz_isSome (sniff : List Char → String) (sink : Sink)
    (s : HttpState) (op : SinkOp) :
    ((runOp sniff sink s op).gz).isSome = s.gz.isSome := by
  cases op with
  | write b =>
    cases sink with
    | plain => rfl
    | gzipWrapped => exact gzipWrite_gz_isSome sniff s b
  | writeHeader code => rfl
  | setHeader k v => rfl

theorem runHandler_gz_isSome (sniff : List Char → String) (sink : Sink)
    (fn : List SinkOp) (s : HttpState) :
    ((runHandler sniff sink s fn).gz).isSome = s.gz.isSome := by
  induction fn generalizing s with
  | nil => rfl
  | cons op rest ih =>
    show ((runHandler sniff sink (runOp sniff sink s op) rest).gz).isSome = _
    rw [ih, runOp_gz_isSome]

theorem closeGz_closed (s : HttpState) (h : s.gz.isSome = true) :
    ∃ g, (closeGz s).gz = some g ∧ g.closed = true := by
  cases hgz : s.gz with
  | none => rw [hgz] at h; simp at h
  | some g => exact ⟨{ g with closed := true }, by simp [closeGz, hgz], rfl⟩

/-- C1: for every request, the gate built by `HttpHandlerStruct.Build`
selects the allowed handler (the `Handler` field) exactly when the
request's method equals some entry of `AllowedMethods` and either
`AllowedOrigins` is empty or the request's `Origin` header equals some
entry of `AllowedOrigins`; in every other case it selects the not-allowed
handler (the fallback closure around `NotAllowHandler`). -/
theorem build_selects_handler_iff (builder : HttpHandlerStruct)
    (w : HttpState) (r : Request) :
    builder.Build w r =
      if r.method ∈ builder.AllowedMethods ∧
          (builder.AllowedOrigins = [] ∨
            headerGet r.headers "Origin" ∈ builder.AllowedOrigins)
      then builder.Handler w r
      else gateFallback builder w r := by
  show (builder.notAllowed r (gateFallback builder)) w r = _
  rw [notAllowed_spec]
  split <;> rfl

/-- C6: a gate whose allowed-methods list is empty routes every request to
the not-allowed handler, regardless of the request's method, its `Origin`
header, and the allowed-origins configuration. -/
theorem empty_methods_always_reject (builder : HttpHandlerStruct)
    (w : HttpState) (r : Request) (h : builder.AllowedMethods = []) :
    builder.Build w r = gateFallback builder w r := by
  show (builder.notAllowed r (gateFallback builder)) w r = _
  rw [notAllowed_spec, if_neg]
  rintro ⟨hm, _⟩
  rw [h] at hm
  exact List.not_mem_nil _ hm

/-- Witness for C6: the concrete always-reject gate routes a concrete GET
request to the fallback. -/
theorem empty_methods_always_reject_witness :
    rejectAllGate.AllowedMethods = [] ∧
      rejectAllGate.Build w0 reqGet = gateFallback rejectAllGate w0 reqGet :=
  ⟨rfl, empty_methods_always_reject rejectAllGate w0 reqGet rfl⟩

/-- C7: gate evaluation is deterministic and order-independent over the
allow-list content — two gates whose allowed-methods lists (and
allowed-origins lists) have the same members select the same handler on
every request — and when an origin list is configured the allowed handler
is selected exactly when both the method test and the origin test pass. -/
theorem gate_membership_determines (H na : GoHandler) (nah : Option GoHandler)
    (ms1 ms2 os1 os2 : List String) (r : Request)
    (hm : ∀ m, m ∈ ms1 ↔ m ∈ ms2) (ho : ∀ o, o ∈ os1 ↔ o ∈ os2) :
    (HttpHandlerStruct.mk nah H ms1 os1).notAllowed r na =
        (HttpHandlerStruct.mk nah H ms2 os2).notAllowed r na
    ∧ (os1 ≠ [] →
        (HttpHandlerStruct.mk nah H ms1 os1).notAllowed r na =
          if r.method ∈ ms1 ∧ headerGet r.headers "Origin" ∈ os1
          then H else na) := by
  have hempty : os1 = [] ↔ os2 = [] := by
    constructor <;> intro h
    · exact List.eq_nil_iff_forall_not_mem.mpr
        (fun x hx => List.eq_nil_iff_forall_not_mem.mp h x ((ho x).mpr hx))
    · exact List.eq_nil_iff_forall_not_mem.mpr
        (fun x hx => List.eq_nil_iff_forall_not_mem.mp h x ((ho x).mp hx))
  constructor
  · rw [notAllowed_spec, notAllowed_spec]
    exact if_congr (and_congr (hm r.method) (or_congr hempty (ho _))) rfl rfl
  · intro hne
    rw [notAllowed_spec]
    exact if_congr (and_congr Iff.rfl (or_iff_right hne)) rfl rfl

/-- Witness for C7: two concrete gates whose method lists are permutations
of each other select the same handler, and with a configured origin list
the selection follows the conjunction of the two tests. -/
theorem gate_membership_determines_witness :
    (HttpHandlerStruct.mk none okHandler ["GET", "POST"]
        ["https://example.com"]).notAllowed reqGet okHandler =
      (HttpHandlerStruct.mk none okHandler ["POST", "GET"]
        ["https://example.com"]).notAllowed reqGet okHandler
    ∧ (HttpHandlerStruct.mk none okHandler ["GET", "POST"]
        ["https://example.com"]).notAllowed reqGet okHandler =
      if reqGet.method ∈ ["GET", "POST"] ∧
          headerGet reqGet.headers "Origin" ∈ ["https://example.com"]
      then okHandler else okHandler :=
  ⟨(gate_membership_determines okHandler okHandler none ["GET", "POST"]
      ["POST", "GET"] ["https://example.com"] ["https://example.com"] reqGet
      (fun m => by simp [List.mem_cons, or_comm]) (fun o => Iff.rfl)).1,
    (gate_membership_determines okHandler okHandler none ["GET", "POST"]
      ["POST", "GET"] ["https://example.com"] ["https://example.com"] reqGet
      (fun m => by simp [List.mem_cons, or_comm]) (fun o => Iff.rfl)).2
      (by decide)⟩

/-- C8: when a request is routed to the not-allowed side of a gate whose
`NotAllowHandler` field is nil, the handler built by `Build` writes exactly
the plain body `"Bad Request"` to the response and sets no status code (and
no header) itself. -/
theorem nil_notallow_writes_bad_request (builder : HttpHandlerStruct)
    (w : HttpState) (r : Request)
    (hnil : builder.NotAllowHandler = none)
    (hrej : ¬(r.method ∈ builder.AllowedMethods ∧
      (builder.AllowedOrigins = [] ∨
        headerGet r.headers "Origin" ∈ builder.AllowedOrigins))) :
    builder.Build w r = fprint w "Bad Request"
    ∧ (builder.Build w r).status = w.status
    ∧ (builder.Build w r).headers = w.headers := by
  have h : builder.Build w r = gateFallback builder w r := by
    show (builder.notAllowed r (gateFallback builder)) w r = _
    rw [notAllowed_spec, if_neg hrej]
  have h2 : gateFallback builder w r = fprint w "Bad Request" := by
    simp [gateFallback, hnil]
  exact ⟨h.trans h2, by rw [h, h2]; rfl, by rw [h, h2]; rfl⟩

/-- Witness for C8: a concrete gate allowing only GET, with a nil
not-allowed handler, answers a DELETE request with exactly the body
`"Bad Request"`, leaving status and headers untouched. -/
theorem nil_notallow_writes_bad_request_witness :
    getOnlyGate.Build w0 reqDelete = fprint w0 "Bad Request"
    ∧ (getOnlyGate.Build w0 reqDelete).status = w0.status
    ∧ (getOnlyGate.Build w0 reqDelete).headers = w0.headers :=
  nil_notallow_writes_bad_request getOnlyGate w0 reqDelete rfl
    (by rintro ⟨hm, _⟩; revert hm; decide)

/-- C2: when the request's `Accept-Encoding` value does not contain the
substring `"gzip"`, `ServeHTTP` invokes the wrapped handler on the
original, unmodified sink with the state exactly as left by the
default-header application (so the envelope sets no `Content-Encoding` and
no other header); when it does contain `"gzip"`, `ServeHTTP` sets
`Content-Encoding` to `"gzip"`, invokes the wrapped handler on the
gzip-wrapped sink around a freshly created compression stream, and that
stream is closed before `ServeHTTP` returns. -/
theorem serveHTTP_compression_negotiation (sniff : List Char → String)
    (defaults : List (List String)) (fn : List SinkOp) (w : HttpState)
    (r : Request) :
    (strContains (headerGet r.headers "Accept-Encoding") "gzip" = false →
      ServeHTTP sniff defaults fn w r =
        runHandler sniff Sink.plain (applyDefaultHeaders w defaults) fn)
    ∧ (strContains (headerGet r.headers "Accept-Encoding") "gzip" = true →
      ServeHTTP sniff defaults fn w r =
        closeGz (runHandler sniff Sink.gzipWrapped
          { setRespHeader (applyDefaultHeaders w defaults)
              "Content-Encoding" "gzip" with
            gz := some { written := [], closed := false } } fn)
      ∧ ∃ g, (ServeHTTP sniff defaults fn w r).gz = some g
          ∧ g.closed = true) := by
  constructor
  · intro h
    simp [ServeHTTP, h]
  · intro h
    have heq : ServeHTTP sniff defaults fn w r =
        closeGz (runHandler sniff Sink.gzipWrapped
          { setRespHeader (applyDefaultHeaders w defaults)
              "Content-Encoding" "gzip" with
            gz := some { written := [], closed := false } } fn) := by
      simp [ServeHTTP, h]
    refine ⟨heq, ?_⟩
    rw [heq]
    apply closeGz_closed
    rw [runHandler_gz_isSome]
    rfl

/-- Witness for C2: both branches of the negotiation at concrete requests —
a request without gzip support runs the handler on the plain sink, a
request with `"gzip, deflate"` runs it on the gzip-wrapped sink and leaves
the stream closed. -/
theorem serveHTTP_compression_negotiation_witness :
    (ServeHTTP sniff0 [] fn0 w0 reqPlainAE =
      runHandler sniff0 Sink.plain (applyDefaultHeaders w0 []) fn0)
    ∧ (ServeHTTP sniff0 [] fn0 w0 reqGzipAE =
        closeGz (runHandler sniff0 Sink.gzipWrapped
          { setRespHeader (applyDefaultHeaders w0 [])
              "Content-Encoding" "gzip" with
            gz := some { written := [], closed := false } } fn0)
      ∧ ∃ g, (ServeHTTP sniff0 [] fn0 w0 reqGzipAE).gz = some g
          ∧ g.closed = true) :=
  ⟨(serveHTTP_compression_negotiation sniff0 [] fn0 w0 reqPlainAE).1
      (by decide),
    (serveHTTP_compression_negotiation sniff0 [] fn0 w0 reqGzipAE).2
      (by decide)⟩

/-- C3: for every call to `gzipResponseWriter.Write` with bytes `b`, if the
response's `Content-Type` is empty at the time of the call, `Write` sets
`Content-Type` to the sniffing algorithm's value on the first at-most-512
bytes of `b` before forwarding `b` to the compression stream; and a call
finding `Content-Type` already set never alters it. -/
theorem gzipWrite_sniffs_content_type (sniff : List Char → String)
    (s : HttpState) (b : List Char) :
    (headerGet s.headers "Content-Type" = "" →
      gzipResponseWriterWrite sniff s b =
        gzStreamWrite
          (setRespHeader s "Content-Type" (sniff (b.take 512))) b)
    ∧ (headerGet s.headers "Content-Type" ≠ "" →
      headerGet (gzipResponseWriterWrite sniff s b).headers "Content-Type" =
        headerGet s.headers "Content-Type") := by
  constructor
  · intro h
    simp [gzipResponseWriterWrite, h, DetectContentType]
  · intro h
    simp only [gzipResponseWriterWrite, if_neg h]
    rw [gzStreamWrite_headers]

/-- Witness for C3: on a concrete state with no `Content-Type`, a write
sets the sniffed type of the call's own first bytes; on a concrete state
with `Content-Type` already `"text/css"`, a write leaves it unchanged. -/
theorem gzipWrite_sniffs_content_type_witness :
    (gzipResponseWriterWrite sniff0 sUnset ("hello").data =
      gzStreamWrite
        (setRespHeader sUnset "Content-Type"
          (sniff0 (("hello").data.take 512))) ("hello").data)
    ∧ headerGet
        (gzipResponseWriterWrite sniff0 sPreset ("hello").data).headers
        "Content-Type" =
      headerGet sPreset.headers "Content-Type" :=
  ⟨(gzipWrite_sniffs_content_type sniff0 sUnset ("hello").data).1 rfl,
    (gzipWrite_sniffs_content_type sniff0 sPreset ("hello").data).2
      (by decide)⟩

/-- C9: `ServeHTTP` applies the configured default headers to the response,
in sequence, before invoking any handler; an entry of exactly two
components is applied as a header set, and an entry of any other shape is
skipped silently, the remaining entries still being applied. -/
theorem default_headers_in_sequence (sniff : List Char → String)
    (defaults : List (List String)) (fn : List SinkOp) (w : HttpState)
    (r : Request) (s : HttpState) (k val : String) (bad : List String)
    (rest : List (List String)) (hbad : bad.length ≠ 2) :
    ServeHTTP sniff defaults fn w r =
      ServeHTTP sniff [] fn (applyDefaultHeaders w defaults) r
    ∧ applyDefaultHeaders s ([k, val] :: rest) =
      applyDefaultHeaders (setRespHeader s k val) rest
    ∧ applyDefaultHeaders s (bad :: rest) = applyDefaultHeaders s rest := by
  refine ⟨?_, ?_, ?_⟩
  · simp [ServeHTTP, applyDefaultHeaders]
  · simp [applyDefaultHeaders]
  · simp [applyDefaultHeaders, hbad]

/-- Witness for C9: a concrete configuration with one well-formed entry and
one malformed entry — the well-formed pair is applied, the malformed one is
skipped, and `ServeHTTP` sees the pre-applied state. -/
theorem default_headers_in_sequence_witness :
    ServeHTTP sniff0 [["x-frame-options", "SAMEORIGIN"], ["lonely"]] fn0 w0
        reqPlainAE =
      ServeHTTP sniff0 [] fn0
        (applyDefaultHeaders w0
          [["x-frame-options", "SAMEORIGIN"], ["lonely"]]) reqPlainAE
    ∧ applyDefaultHeaders w0 [["x-frame-options", "SAMEORIGIN"], ["lonely"]] =
      applyDefaultHeaders (setRespHeader w0 "x-frame-options" "SAMEORIGIN")
        [["lonely"]]
    ∧ applyDefaultHeaders w0 [["lonely"], ["lonely"]] =
      applyDefaultHeaders w0 [["lonely"]] :=
  default_headers_in_sequence sniff0
    [["x-frame-options", "SAMEORIGIN"], ["lonely"]] fn0 w0 reqPlainAE w0
    "x-frame-options" "SAMEORIGIN" ["lonely"] [["lonely"]] (by decide)

/-- C4: whenever the primary lookup fails (open failure, or a directory
with no `index.html` entry) and `/error404.html` opens under the same
root, `neuteredFileSystem.Open` sets the response `Content-Type` to
`"text/html; charset=utf-8"`, sets the response status to 404, and returns
the substitute document's handle instead of an error. -/
theorem open_serves_error404 {ε : Type} (fs : String → Except ε GoFile)
    (s : HttpState) (path : String) (sub : GoFile)
    (hfail : primaryFails fs path)
    (hsub : fs "/error404.html" = Except.ok sub) :
    neuteredFileSystem.Open ⟨fs, s⟩ path =
      (Except.ok sub,
        { setRespHeader s "Content-Type" "text/html; charset=utf-8" with
            status := some 404 }) := by
  have herr : errorHandler404 (⟨fs, s⟩ : neuteredFileSystem ε) =
      (Except.ok sub,
        { setRespHeader s "Content-Type" "text/html; charset=utf-8" with
            status := some 404 }) := by
    simp [errorHandler404, hsub]
  rcases hfail with ⟨e, he⟩ | ⟨f, e, hf, hdir, hidx⟩
  · simp [neuteredFileSystem.Open, he, herr]
  · simp [neuteredFileSystem.Open, hf, hdir, hidx, herr, ite_self]

/-- Witness for C4: on a concrete root holding `/error404.html` and an
index-less directory `docs`, opening `docs` serves the substitute handle
with status 404 and the HTML content type. -/
theorem open_serves_error404_witness :
    primaryFails fs404 "docs"
    ∧ fs404 "/error404.html" = Except.ok subFile
    ∧ neuteredFileSystem.Open ⟨fs404, w0⟩ "docs" =
      (Except.ok subFile,
        { setRespHeader w0 "Content-Type" "text/html; charset=utf-8" with
            status := some 404 }) :=
  ⟨Or.inr ⟨docsDir, "open failure", rfl, rfl, rfl⟩, rfl,
    open_serves_error404 fs404 w0 "docs" subFile
      (Or.inr ⟨docsDir, "open failure", rfl, rfl, rfl⟩) rfl⟩

/-- Counterexample to C5 as stated: on a concrete filesystem where the
primary open of `"missing.txt"` fails with `"primary gone"` and the open
of `/error404.html` fails with `"substitute gone"`,
`neuteredFileSystem.Open` returns the substitute-lookup error, not the
original primary-lookup error. -/
theorem open_original_error_cex :
    (neuteredFileSystem.Open ⟨fsBothFail, w0⟩ "missing.txt").fst ≠
      Except.error "primary gone"
    ∧ (neuteredFileSystem.Open ⟨fsBothFail, w0⟩ "missing.txt").fst =
      Except.error "substitute gone"
    ∧ fsBothFail "missing.txt" = Except.error "primary gone" := by
  refine ⟨?_, rfl, rfl⟩
  intro h
  have h2 : (Except.error "substitute gone" : Except String GoFile) =
      Except.error "primary gone" := h
  injection h2 with h3
  exact absurd h3 (by decide)

/-- C5 amended: for every path whose primary lookup fails, if the
substitute document `/error404.html` also cannot be opened,
`neuteredFileSystem.Open` returns the error from the substitute-document
lookup (the failure of opening `/error404.html`), not the primary-lookup
error. -/
theorem open_returns_substitute_error {ε : Type}
    (fs : String → Except ε GoFile) (s : HttpState) (path : String) (esub : ε)
    (hfail : primaryFails fs path)
    (hsub : fs "/error404.html" = Except.error esub) :
    (neuteredFileSystem.Open ⟨fs, s⟩ path).fst = Except.error esub := by
  rcases hfail with ⟨e, he⟩ | ⟨f, e, hf, hdir, hidx⟩
  · simp [neuteredFileSystem.Open, he, errorHandler404, hsub]
  · simp [neuteredFileSystem.Open, hf, hdir, hidx, errorHandler404, hsub,
      ite_self]

/-- Witness for C5's amended statement: on the concrete doubly-failing
filesystem, the returned error is the substitute-lookup one. -/
theorem open_returns_substitute_error_witness :
    primaryFails fsBothFail "missing.txt"
    ∧ fsBothFail "/error404.html" = Except.error "substitute gone"
    ∧ (neuteredFileSystem.Open ⟨fsBothFail, w0⟩ "missing.txt").fst =
      Except.error "substitute gone" :=
  ⟨Or.inl ⟨"primary gone", rfl⟩, rfl,
    open_returns_substitute_error fsBothFail w0 "missing.txt"
      "substitute gone" (Or.inl ⟨"primary gone", rfl⟩) rfl⟩

/-- C10: for every path whose primary lookup fails, if opening
`/error404.html` also fails, `neuteredFileSystem.Open` returns an error
having written nothing to the response: its headers and status are exactly
as they were handed in. -/
theorem open_double_failure_untouched {ε : Type}
    (fs : String → Except ε GoFile) (s : HttpState) (path : String)
    (hfail : primaryFails fs path)
    (hsubfail : ∃ e, fs "/error404.html" = Except.error e) :
    (neuteredFileSystem.Open ⟨fs, s⟩ path).snd = s
    ∧ ∃ e, (neuteredFileSystem.Open ⟨fs, s⟩ path).fst = Except.error e := by
  obtain ⟨esub, hsub⟩ := hsubfail
  rcases hfail with ⟨e, he⟩ | ⟨f, e, hf, hdir, hidx⟩
  · constructor
    · simp [neuteredFileSystem.Open, he, errorHandler404, hsub]
    · exact ⟨esub, by
        simp [neuteredFileSystem.Open, he, errorHandler404, hsub]⟩
  · constructor
    · simp [neuteredFileSystem.Open, hf, hdir, hidx, errorHandler404, hsub,
        ite_self]
    · exact ⟨esub, by
        simp [neuteredFileSystem.Open, hf, hdir, hidx, errorHandler404, hsub,
          ite_self]⟩

/-- Witness for C10: on the concrete doubly-failing filesystem, opening a
missing path leaves the response state untouched and yields an error. -/
theorem open_double_failure_untouched_witness :
    primaryFails fsBothFail "another.txt"
    ∧ (neuteredFileSystem.Open ⟨fsBothFail, w0⟩ "another.txt").snd = w0
    ∧ ∃ e, (neuteredFileSystem.Open ⟨fsBothFail, w0⟩ "another.txt").fst =
        Except.error e :=
  ⟨Or.inl ⟨"primary gone", rfl⟩,
    (open_double_failure_untouched fsBothFail w0 "another.txt"
      (Or.inl ⟨"primary gone", rfl⟩) ⟨"substitute gone", rfl⟩).1,
    (open_double_failure_untouched fsBothFail w0 "another.txt"
      (Or.inl ⟨"primary gone", rfl⟩) ⟨"substitute gone", rfl⟩).2⟩

end Webimizer
